import Mathlib

/-!
Shallow embedding of src/vendor/users/models/user.server.model.js:
credential hashing and verification, the password-policy gate in the save
pipeline, passphrase generation, notification dispatch, the schema field
validators, and the email-TTL index reconciliation.

External primitives that are not part of the repository (node crypto,
bcryptjs, the owasp strength test, the MongoDB index API) are modelled
from the spec; each such definition carries a doc comment saying so.
-/

namespace UserModel

/-! ### Generic character-list helpers -/

/-- Length of the run of copies of `c` at the head of the list. -/
def runLen (c : Char) : List Char → Nat
  | [] => 0
  | d :: rest => if d = c then runLen c rest + 1 else 0

/-- Number of leading occurrences of `c`. -/
def countLeading (c : Char) : List Char → Nat
  | [] => 0
  | d :: rest => if d = c then countLeading c rest + 1 else 0

/-- Does the list contain three or more equal consecutive characters?
Boolean mirror of the regular expression `(.)\1{2,}`. -/
def hasRepeat3List : List Char → Bool
  | a :: b :: c :: rest => (a == b && b == c) || hasRepeat3List (b :: c :: rest)
  | _ => false

/-- The string contains a run of three or more identical characters. -/
def hasRepeat3 (s : String) : Bool := hasRepeat3List s.data

/-- String `s` begins with `t`; same as the library test used on index
names, written on character lists so that it evaluates in the kernel. -/
def strHeadEq (s t : String) : Bool := decide (s.data.take t.data.length = t.data)

/-! ### Base64 (crypto.randomBytes(16).toString of line 288 is base64) -/

/-- The base64 alphabet. -/
def base64Table : List Char :=
  "ABCDEFGHIJKLMNOPQRSTUVWXYZabcdefghijklmnopqrstuvwxyz0123456789+/".data

/-- Character of the base64 alphabet at index `n`. -/
def b64char (n : Nat) : Char := base64Table.getD n 'A'

/-- Standard base64 encoding of a byte list, three bytes to four chars,
with `=` padding. -/
def base64Chunks : List Nat → List Char
  | [] => []
  | [a] => [b64char (a / 4 % 64), b64char (a % 4 * 16), '=', '=']
  | [a, b] => [b64char (a / 4 % 64), b64char (a % 4 * 16 + b / 16),
               b64char (b % 16 * 4), '=']
  | a :: b :: c :: rest =>
      b64char (a / 4 % 64) :: b64char (a % 4 * 16 + b / 16) ::
      b64char (b % 16 * 4 + c / 64 % 4) :: b64char (c % 64) ::
      base64Chunks rest

/-- Base64 encoding as a string. -/
def base64Encode (bytes : List Nat) : String := ⟨base64Chunks bytes⟩

/-! ### Cryptographic primitives, modelled from the spec

The node `crypto` and `bcryptjs` modules are external dependencies, not
code under src/. The spec idealises them as collision-free keyed
derivations (section 4.1 and section 8 rely on distinct passwords hashing
to distinct stored values under a fixed salt), so they are modelled as
injective encodings of their inputs; only injectivity and the
salt-extraction behaviour of bcrypt verification are used. -/

/-- Modelled from the spec: `crypto.pbkdf2Sync(password, salt, 10000, 64,
sha512).toString(base64)` (line 325), idealised as an injective function
of password and salt. The password length is recorded in unary followed
by a separator, so both inputs are recoverable. -/
def pbkdf2Sync (password salt : String) : String :=
  ⟨'K' :: (List.replicate password.data.length '#' ++ '|' :: (password.data ++ salt.data))⟩

/-- Modelled from the spec: `bcrypt.hashSync(password, salt)` (line 322),
idealised as an injective function of password and salt in which the salt
is self-embedded and recoverable, as in real bcrypt output. -/
def bcryptHashSync (password salt : String) : String :=
  ⟨'B' :: (List.replicate salt.data.length '#' ++ '|' :: (salt.data ++ '|' :: password.data))⟩

/-- Salt embedded in a modelled bcrypt hash; yields `""` on strings that
are not modelled bcrypt output. -/
def bcryptSaltOf (hash : String) : String :=
  if hash.data.head? = some 'B' then
    ⟨(List.drop (countLeading '#' hash.data.tail + 1) hash.data.tail).take
       (countLeading '#' hash.data.tail)⟩
  else ""

/-- Modelled from the spec: `bcrypt.compareSync(password, hash)`
(line 340): extract the salt embedded in the stored hash, re-derive, and
compare the full strings; a string that is not bcrypt output compares
unequal to every re-derived hash (bcryptjs likewise reports false on a
malformed stored hash). -/
def bcryptCompareSync (password hash : String) : Bool :=
  hash == bcryptHashSync password (bcryptSaltOf hash)

/-! ### hashPassword (lines 318-332) -/

/-- Embedding of `UserSchema.statics.hashPassword`: inside the
`if (salt && password)` guard a switch on `enctype` selects bcrypt for
the tag `bcrypt` and pbkdf2 for `crypto` and for the default case;
otherwise the password is returned unchanged. -/
def hashPassword (password salt enctype : String) : String :=
  if password ≠ "" ∧ salt ≠ "" then
    if enctype = "bcrypt" then bcryptHashSync password salt
    else pbkdf2Sync password salt
  else password

/-! ### The credential record and authenticate (lines 337-345) -/

/-- The credential-relevant slice of a user document. Schema defaults:
`password` defaults to the empty string, `enctype` to `crypto`
(line 185); an absent `salt` is modelled as the empty string (absent and
empty are both falsy to the source's guards). -/
structure UserDoc where
  password : String := ""
  salt : String := ""
  enctype : String := "crypto"
  provider : String := ""
deriving Repr, DecidableEq

/-- Embedding of `UserSchema.methods.authenticate`: bcrypt records go
through `bcrypt.compareSync`; `crypto` and any other tag compare the
stored string against `hashPassword(candidate, salt, enctype)` with
strict equality. -/
def authenticate (doc : UserDoc) (password : String) : Bool :=
  if doc.enctype = "bcrypt" then bcryptCompareSync password doc.password
  else doc.password == hashPassword password doc.salt doc.enctype

/-! ### The owasp strength test

Modelled from the spec: the `owasp-password-strength-test` dependency is
not code under src/. Library defaults, named in the source's comments
(passphrases are only tested against the required tests): minimum length
10, maximum length 128, no run of three or more repeated characters as
the required tests; the four character-class tests are optional, all four
must pass unless the password is a passphrase (length at least 20, with
`allowPassphrases` true). -/

def owaspMinLengthMsg : String := "The password must be at least 10 characters long."

def owaspMaxLengthMsg : String := "The password must be fewer than 128 characters."

def owaspRepeatMsg : String :=
  "The password may not contain sequences of three or more repeated characters."

def owaspLowercaseMsg : String := "The password must contain at least one lowercase letter."

def owaspUppercaseMsg : String := "The password must contain at least one uppercase letter."

def owaspNumberMsg : String := "The password must contain at least one number."

def owaspSpecialMsg : String := "The password must contain at least one special character."

/-- Lowercase ascii letter test. -/
def isLowerCh (c : Char) : Bool := 'a' ≤ c && c ≤ 'z'

/-- Uppercase ascii letter test. -/
def isUpperCh (c : Char) : Bool := 'A' ≤ c && c ≤ 'Z'

/-- Ascii digit test. -/
def isDigitCh (c : Char) : Bool := '0' ≤ c && c ≤ '9'

/-- Modelled from the spec: the required owasp tests, in library order. -/
def owaspRequiredErrors (s : String) : List String :=
  (if s.length < 10 then [owaspMinLengthMsg] else []) ++
  (if 128 < s.length then [owaspMaxLengthMsg] else []) ++
  (if hasRepeat3 s then [owaspRepeatMsg] else [])

/-- Modelled from the spec: the optional owasp tests, in library order,
each with its pass flag. -/
def owaspOptionalResults (s : String) : List (Bool × String) :=
  [ (s.data.any isLowerCh, owaspLowercaseMsg),
    (s.data.any isUpperCh, owaspUppercaseMsg),
    (s.data.any isDigitCh, owaspNumberMsg),
    (s.data.any (fun c => !isLowerCh c && !isUpperCh c && !isDigitCh c), owaspSpecialMsg) ]

/-- Messages of the failed optional tests. -/
def owaspOptionalErrors (s : String) : List String :=
  ((owaspOptionalResults s).filter (fun r => !r.1)).map Prod.snd

/-- Number of optional tests passed. -/
def owaspOptionalPassed (s : String) : Nat :=
  ((owaspOptionalResults s).filter (fun r => r.1)).length

/-- Modelled from the spec: `owasp.test(password).errors` — required
errors, followed by the optional errors when the password is not a
passphrase (shorter than 20) and fewer than four optional tests pass. -/
def owaspErrors (s : String) : List String :=
  owaspRequiredErrors s ++
  (if 20 ≤ s.length then []
   else if owaspOptionalPassed s < 4 then owaspOptionalErrors s else [])

/-! ### The save pipeline hooks (lines 280-313) -/

/-- Fresh randomness consumed by one run of the pre-save hook: the salt
`bcrypt.genSaltSync()` would return, and the 16 bytes
`crypto.randomBytes(16)` would return. -/
structure SaltSource where
  bcryptSalt : String
  randomBytes : List Nat

/-- Embedding of the `pre_save` hook: when a non-empty password is being
modified, a salt is drawn for the record's enctype — `bcrypt.genSaltSync()`
for bcrypt; 16 random bytes base64-encoded for `crypto` and for the
default case, which also pins `enctype` to `crypto` — and the password
field is replaced by `hashPassword(password, salt, enctype)`. -/
def pre_save (doc : UserDoc) (modifiedPassword : Bool) (rnd : SaltSource) : UserDoc :=
  if doc.password ≠ "" ∧ modifiedPassword = true then
    if doc.enctype = "bcrypt" then
      { doc with salt := rnd.bcryptSalt,
                 password := hashPassword doc.password rnd.bcryptSalt doc.enctype }
    else
      { doc with salt := base64Encode rnd.randomBytes, enctype := "crypto",
                 password := hashPassword doc.password (base64Encode rnd.randomBytes) "crypto" }
  else doc

/-- Embedding of the `pre_validate` hook: when the provider is `local`
and a non-empty password is being modified, the owasp test runs and, on
failure, the password field is invalidated with every error message
joined by single spaces (`result.errors.join` on line 307); the returned
option is the invalidation. -/
def pre_validate (doc : UserDoc) (modifiedPassword : Bool) : Option String :=
  if doc.provider = "local" ∧ doc.password ≠ "" ∧ modifiedPassword = true then
    if owaspErrors doc.password = [] then none
    else some (String.intercalate " " (owaspErrors doc.password))
  else none

/-- One mongoose save of `draft` over the persisted document `stored`:
validation hooks run first; an invalidation aborts the save before the
pre-save hook, leaving the persisted document untouched; otherwise the
pre-save hook runs and its result is persisted. -/
def saveUser (stored draft : UserDoc) (modifiedPassword : Bool) (rnd : SaltSource) :
    UserDoc × Option String :=
  match pre_validate draft modifiedPassword with
  | some e => (stored, some e)
  | none => (pre_save draft modifiedPassword rnd, none)

/-- The schema default for `enctype` (line 185). -/
def defaultEnctype : String := "crypto"

/-- A freshly created local account whose enctype was not chosen
explicitly, so the schema default applies. -/
def newLocalUser (password : String) : UserDoc :=
  { password := password, salt := "", enctype := defaultEnctype, provider := "local" }

/-! ### generateRandomPassphrase (lines 430-461) -/

/-- Emit a pending run: dropped when it reached length three or more,
kept verbatim otherwise. -/
def flushRun (c : Char) (n : Nat) : List Char :=
  if 3 ≤ n then [] else List.replicate n c

/-- Left-to-right scan holding the current run; mirrors
`password.replace(repeatingCharacters, ...)` with the empty replacement:
each maximal run of length three or more is deleted, and the scan does
not revisit the junction (JavaScript replace continues after the match). -/
def stripAux : List Char → Char → Nat → List Char
  | [], c, n => flushRun c n
  | d :: rest, c, n =>
      if d = c then stripAux rest c (n + 1)
      else flushRun c n ++ stripAux rest d 1

/-- The candidate after removal of every repeating run of length three
or more. -/
def stripRepeats (s : String) : String :=
  match s.data with
  | [] => ""
  | c :: rest => ⟨stripAux rest c 1⟩

/-- Embedding of the generation loop of `generateRandomPassphrase`. The
list holds the successive outputs of `generatePassword.generate` (an
external dependency drawing random strings); each is stripped of
repeating runs on arrival. The while condition re-tests the stripped
password: its regular expression carries the global flag, but every
`replace` call resets `lastIndex` to zero (the final failing exec of the
replace loop does so), so the test always searches from the start and is
modelled statelessly. With no candidates left the loop cannot finish and
no value is produced. -/
def genLoop : List String → String → Option String
  | [], password =>
      if password.length < 20 then none
      else if hasRepeat3 password then none
      else some password
  | cand :: rest, password =>
      if password.length < 20 then genLoop rest (stripRepeats cand)
      else if hasRepeat3 password then genLoop rest (stripRepeats cand)
      else some password

/-- The rejection message of line 455. -/
def passphraseErrorMsg : String :=
  "An unexpected problem occured while generating the random passphrase"

/-- Embedding of `UserSchema.statics.generateRandomPassphrase`: run the
loop, then reject when the final candidate still fails the owasp test,
resolve with it otherwise. -/
def generateRandomPassphrase (candidates : List String) : Option (Except String String) :=
  match genLoop candidates "" with
  | none => none
  | some password =>
      if owaspErrors password ≠ [] then some (Except.error passphraseErrorMsg)
      else some (Except.ok password)

/-! ### Field validators (lines 102-119, 139-152) -/

/-- Embedding of `validateLocalStrategyProperty` (line 102): the source
is a zero-argument arrow function returning true (the guarded body is
commented out); mongoose passes it the field value, which JavaScript
silently drops, so as a validator it is constantly true. -/
def validateLocalStrategyProperty (_property : String) : Bool := true

/-- A mongoose field validator: predicate plus failure message. -/
structure FieldValidator where
  check : String → Bool
  message : String

/-- The validator attached to `name.first` (line 144). -/
def firstNameValidator : FieldValidator :=
  ⟨validateLocalStrategyProperty, "Please fill in your first name"⟩

/-- The validator attached to `name.last` (line 150). -/
def lastNameValidator : FieldValidator :=
  ⟨validateLocalStrategyProperty, "Please fill in your last name"⟩

/-- Messages produced by running a field validator on a value. -/
def runFieldValidator (v : FieldValidator) (value : String) : List String :=
  if v.check value then [] else [v.message]

/-- The international-format regular expression of line 118,
`^\+[1-9]{1}[0-9]{3,14}$`, as a decidable test. -/
def phoneRegexTest (phone : String) : Bool :=
  match phone.data with
  | c :: d :: rest =>
      c == '+' && ('1' ≤ d && d ≤ '9') &&
      rest.all (fun x => '0' ≤ x && x ≤ '9') &&
      decide (3 ≤ rest.length) && decide (rest.length ≤ 14)
  | _ => false

/-- The `this.provider` seen by the arrow function on line 118: in
CommonJS the top-level `this` is `module.exports`, an object carrying no
`provider` field, so the access yields undefined, modelled as none. -/
def moduleProvider : Option String := none

/-- The `this.updated` seen by the arrow function on line 118; undefined
for the same reason, modelled as none (falsy). -/
def moduleUpdated : Option Bool := none

/-- Embedding of `validateLocalStrategyPhone` (lines 114-119): an empty
phone passes at once; otherwise the guard
`(this.provider !== local && !this.updated)` is evaluated against the
module context, short-circuiting with the regular-expression test. -/
def validateLocalStrategyPhone (phone : String) : Bool :=
  if phone = "" then true
  else (decide (moduleProvider ≠ some "local") && !(moduleUpdated.getD false))
       || phoneRegexTest phone

/-! ### Notification dispatch (lines 59-97, 350-360) -/

/-- Module-level mailer state: whether sendgrid is configured, whether an
smtp transport was created, and what each transport's send would do
(resolve with data, or fail). The transports are external collaborators;
their outcome is a parameter. -/
structure MailerEnv where
  isSendGrid : Bool
  smtpConfigured : Bool
  sgSend : Except String String
  smtpSend : Except String String

/-- Outcome of a send operation as seen by an awaiting caller: resolved
data, resolved false, or a rejection (a thrown or propagated error). -/
inductive JsResult where
  | value (data : String)
  | falsy
  | rejected (err : String)
deriving Repr, DecidableEq

/-- Embedding of the module function `sendMail` (lines 59-97): an empty
recipient list returns false; the sendgrid branch and the smtp branch
both catch transport errors and return false; with neither transport
configured the function returns false. -/
def sendMail (env : MailerEnv) (subject body : String) (users : List String) : JsResult :=
  if users.isEmpty then JsResult.falsy
  else if env.isSendGrid then
    match env.sgSend with
    | Except.ok d => JsResult.value d
    | Except.error _ => JsResult.falsy
  else if env.smtpConfigured then
    match env.smtpSend with
    | Except.ok d => JsResult.value d
    | Except.error _ => JsResult.falsy
  else JsResult.falsy

/-- Embedding of `UserSchema.methods.sendSMS` (lines 350-360): with a
phone and a configured twilio client the result of
`twilioConfig.messages.create` is returned as is — a rejected promise
included, there is no catch — and false is returned otherwise. -/
def sendSMS (twilioConfigured : Bool) (phone : String) (_body : String)
    (createResult : Except String String) : JsResult :=
  if phone ≠ "" ∧ twilioConfigured = true then
    match createResult with
    | Except.ok d => JsResult.value d
    | Except.error e => JsResult.rejected e
  else JsResult.falsy

/-! ### Email-TTL index reconciliation (lines 470-502) -/

/-- Email-validation configuration slice
(`config.validations.config.email`). -/
structure EmailConfig where
  validate : Bool
  ttl : Int

/-- The partial filter of the TTL rule (lines 474-477), canonically
ordered; `_.isEqual` deep equality is modelled by equality of this
canonical form. -/
def emailFilter : List (String × String) :=
  [("validations.type", "email"), ("validations.validated", "false")]

/-- A store-level index as listed by `collection.indexes()`: name, key
pattern (written as its default-name encoding), optional partial filter,
optional TTL. -/
structure TTLIndex where
  name : String
  key : String
  filterExpression : Option (List (String × String))
  expireAfterSeconds : Option Int
deriving Repr, DecidableEq

/-- The rule the engine creates: key `{created_at: 1}` under MongoDB's
derived default name, the email filter, and the configured TTL. -/
def emailTTLRule (t : Int) : TTLIndex :=
  { name := "created_at_1", key := "created_at_1",
    filterExpression := some emailFilter, expireAfterSeconds := some t }

/-- The outdated-index predicate of lines 481-487: name starts with
`created_at`, the partial filter deep-equals the email filter, and the
TTL differs from the configured one. -/
def dropPred (ttl : Int) (ix : TTLIndex) : Bool :=
  strHeadEq ix.name "created_at" &&
  decide (ix.filterExpression = some emailFilter) &&
  decide (ix.expireAfterSeconds ≠ some ttl)

/-- Modelled from the spec: `collection.createIndex({created_at: 1}, ...)`
of the external store — create-if-absent under the derived default name;
a no-op when an identical index already exists on the key, an options
conflict error when the key is already indexed with different options. -/
def createIndexOp (ixs : List TTLIndex) (filterExpr : List (String × String)) (ttl : Int) :
    Except String (List TTLIndex) :=
  match ixs.find? (fun ix => decide (ix.key = "created_at_1")) with
  | some ix =>
      if ix.name = "created_at_1" ∧ ix.filterExpression = some filterExpr ∧
         ix.expireAfterSeconds = some ttl
      then Except.ok ixs
      else Except.error "IndexOptionsConflict"
  | none =>
      Except.ok (ixs ++ [{ name := "created_at_1", key := "created_at_1",
                           filterExpression := some filterExpr,
                           expireAfterSeconds := some ttl }])

/-- Embedding of `createEmailTTLIndex`: when email validation is on and
the TTL positive, the first outdated index is dropped by name and the
current rule is then created if absent. The two driver calls are not
awaited in the source but are issued in this order on one collection;
the model sequences them. -/
def createEmailTTLIndex (cfg : EmailConfig) (ixs : List TTLIndex) :
    Except String (List TTLIndex) :=
  if cfg.validate = true ∧ 0 < cfg.ttl then
    let afterDrop :=
      match ixs.find? (dropPred cfg.ttl) with
      | some outdatedIndex => ixs.filter (fun ix => ix.name != outdatedIndex.name)
      | none => ixs
    createIndexOp afterDrop emailFilter cfg.ttl
  else Except.ok ixs

/-- The rules of a store state whose filter is the email filter. -/
def countEmailRules (ixs : List TTLIndex) : Nat :=
  (ixs.filter (fun ix => decide (ix.filterExpression = some emailFilter))).length

/-! ### Helper lemmas about the modelled primitives -/

theorem repPipe_inj : ∀ (m n : Nat) (u v : List Char),
    List.replicate m '#' ++ '|' :: u = List.replicate n '#' ++ '|' :: v → m = n ∧ u = v := by
  intro m
  induction m with
  | zero =>
    intro n u v h
    cases n with
    | zero => simpa using h
    | succ k =>
      rw [List.replicate_succ] at h
      simp only [List.replicate_zero, List.nil_append, List.cons_append, List.cons.injEq] at h
      exact absurd h.1 (by decide)
  | succ k ih =>
    intro n u v h
    cases n with
    | zero =>
      rw [List.replicate_succ] at h
      simp only [List.replicate_zero, List.nil_append, List.cons_append, List.cons.injEq] at h
      exact absurd h.1 (by decide)
    | succ l =>
      rw [List.replicate_succ, List.replicate_succ] at h
      simp only [List.cons_append, List.cons.injEq] at h
      obtain ⟨h3, h4⟩ := ih l u v h.2
      exact ⟨by omega, h4⟩

theorem pbkdf2Sync_inj (p q s : String) (h : pbkdf2Sync p s = pbkdf2Sync q s) : p = q := by
  have h2 : 'K' :: (List.replicate p.data.length '#' ++ '|' :: (p.data ++ s.data)) =
      'K' :: (List.replicate q.data.length '#' ++ '|' :: (q.data ++ s.data)) :=
    congrArg String.data h
  rw [List.cons.injEq] at h2
  obtain ⟨hlen, h3⟩ := repPipe_inj _ _ _ _ h2.2
  exact congrArg String.mk (List.append_inj h3 hlen).1

theorem pbkdf2Sync_ne_empty (p s : String) : pbkdf2Sync p s ≠ "" := by
  intro h
  have h2 := congrArg String.data h
  simp [pbkdf2Sync] at h2

theorem bcryptHashSync_ne_empty (p s : String) : bcryptHashSync p s ≠ "" := by
  intro h
  have h2 := congrArg String.data h
  simp [bcryptHashSync] at h2

theorem countLeading_replicate (n : Nat) (t : List Char) :
    countLeading '#' (List.replicate n '#' ++ '|' :: t) = n := by
  induction n with
  | zero => simp [countLeading]
  | succ k ih => rw [List.replicate_succ]; simp [countLeading, ih]

theorem drop_replicate_cons (n : Nat) (c d : Char) (t : List Char) :
    List.drop (n + 1) (List.replicate n c ++ d :: t) = t := by
  induction n with
  | zero => simp
  | succ k ih => rw [List.replicate_succ]; simpa using ih

theorem takeLen_append {α : Type} (l₁ l₂ : List α) : List.take l₁.length (l₁ ++ l₂) = l₁ := by
  induction l₁ with
  | nil => simp
  | cons a l ih => simp [ih]

theorem bcryptSaltOf_hashSync (p s : String) : bcryptSaltOf (bcryptHashSync p s) = s := by
  have hdata : (bcryptHashSync p s).data =
      'B' :: (List.replicate s.data.length '#' ++ '|' :: (s.data ++ '|' :: p.data)) := rfl
  rw [bcryptSaltOf, hdata]
  rw [if_pos (by simp)]
  simp only [List.tail_cons]
  rw [countLeading_replicate, drop_replicate_cons, takeLen_append]

theorem bcryptCompareSync_self (p s : String) :
    bcryptCompareSync p (bcryptHashSync p s) = true := by
  unfold bcryptCompareSync
  rw [bcryptSaltOf_hashSync]
  simp

theorem bcryptHashSync_inj (p q s : String) (h : bcryptHashSync p s = bcryptHashSync q s) :
    p = q := by
  have h2 : 'B' :: (List.replicate s.data.length '#' ++ '|' :: (s.data ++ '|' :: p.data)) =
      'B' :: (List.replicate s.data.length '#' ++ '|' :: (s.data ++ '|' :: q.data)) :=
    congrArg String.data h
  rw [List.cons.injEq] at h2
  have h4 := (List.append_inj h2.2 rfl).2
  rw [List.cons.injEq] at h4
  have h6 := (List.append_inj h4.2 rfl).2
  rw [List.cons.injEq] at h6
  exact congrArg String.mk h6.2

theorem bcryptCompareSync_ne (p q s : String) (hne : q ≠ p) :
    bcryptCompareSync q (bcryptHashSync p s) = false := by
  unfold bcryptCompareSync
  rw [bcryptSaltOf_hashSync, beq_eq_false_iff_ne]
  intro h
  exact hne (bcryptHashSync_inj p q s h).symm

/-! ### Claims C1, C2, C7 -/

/-- C1 counterexample. The claim quantifies over every password and every
salt, but the empty password is a no-op for `hashPassword` (the stored
value stays empty) and `bcrypt.compareSync` then rejects it, so verifying
the original password against its own stored hash returns false, where the
claim requires true. -/
theorem hashPassword_roundTrip_fails_on_empty :
    authenticate { password := hashPassword "" "abc" "bcrypt", salt := "abc",
                   enctype := "bcrypt", provider := "local" } "" = false := by
  decide

/-- C1 (amended): for every non-empty password, non-empty salt and
algorithm tag in crypto or bcrypt, the stored hash produced by
`hashPassword` authenticates the original password, and any different
candidate is rejected. -/
theorem hashPassword_authenticate_roundTrip (p q s a : String)
    (ha : a = "crypto" ∨ a = "bcrypt") (hp : p ≠ "") (hs : s ≠ "") :
    authenticate { password := hashPassword p s a, salt := s, enctype := a,
                   provider := "local" } p = true ∧
    (q ≠ p → authenticate { password := hashPassword p s a, salt := s, enctype := a,
                            provider := "local" } q = false) := by
  rcases ha with rfl | rfl
  · constructor
    · simp [authenticate]
    · intro hq
      show (hashPassword p s "crypto" == hashPassword q s "crypto") = false
      rw [beq_eq_false_iff_ne]
      unfold hashPassword
      rw [if_pos ⟨hp, hs⟩, if_neg (by decide)]
      by_cases hq0 : q = ""
      · subst hq0
        rw [if_neg (by simp)]
        exact pbkdf2Sync_ne_empty p s
      · rw [if_pos ⟨hq0, hs⟩, if_neg (by decide)]
        intro h
        exact hq (pbkdf2Sync_inj p q s h).symm
  · have hstored : hashPassword p s "bcrypt" = bcryptHashSync p s := by
      unfold hashPassword
      rw [if_pos ⟨hp, hs⟩, if_pos rfl]
    constructor
    · show bcryptCompareSync p (hashPassword p s "bcrypt") = true
      rw [hstored]
      exact bcryptCompareSync_self p s
    · intro hq
      show bcryptCompareSync q (hashPassword p s "bcrypt") = false
      rw [hstored]
      exact bcryptCompareSync_ne p q s hq

/-- Witness for the amended C1 at a concrete password, salt and wrong
candidate. -/
theorem hashPassword_authenticate_roundTrip_witness :
    authenticate { password := hashPassword "Abcdef123" "NaClNaCl" "crypto",
                   salt := "NaClNaCl", enctype := "crypto", provider := "local" }
        "Abcdef123" = true ∧
    authenticate { password := hashPassword "Abcdef123" "NaClNaCl" "crypto",
                   salt := "NaClNaCl", enctype := "crypto", provider := "local" }
        "wrong" = false := by
  have h := hashPassword_authenticate_roundTrip "Abcdef123" "wrong" "NaClNaCl" "crypto"
      (Or.inl rfl) (by decide) (by decide)
  exact ⟨h.1, h.2 (by decide)⟩

/-- C2 counterexample. On a record with no credential set (all schema
defaults: empty password, empty salt, enctype crypto) the empty candidate
authenticates successfully: the strict equality compares empty to empty.
The claim requires false for every candidate on an unset credential. -/
theorem authenticate_empty_credential_accepts_empty :
    authenticate { password := "", salt := "", enctype := "crypto",
                   provider := "local" } "" = true := by
  decide

/-- C2 (amended): on a record whose stored password is empty,
`authenticate` returns false for every candidate — never an error — with
the single exception that under a non-bcrypt algorithm tag the empty
candidate returns true, so an unset credential is distinguishable there. -/
theorem authenticate_empty_stored (doc : UserDoc) (p : String) (h : doc.password = "") :
    authenticate doc p = true ↔ (doc.enctype ≠ "bcrypt" ∧ p = "") := by
  unfold authenticate
  by_cases he : doc.enctype = "bcrypt"
  · rw [if_pos he, h]
    constructor
    · intro hb
      exfalso
      unfold bcryptCompareSync at hb
      rw [beq_iff_eq] at hb
      exact bcryptHashSync_ne_empty _ _ hb.symm
    · rintro ⟨hne, -⟩
      exact absurd he hne
  · rw [if_neg he, h]
    constructor
    · intro hb
      rw [beq_iff_eq] at hb
      by_cases hp : p = ""
      · exact ⟨he, hp⟩
      · exfalso
        unfold hashPassword at hb
        by_cases hs : doc.salt = ""
        · rw [if_neg (by tauto)] at hb
          exact hp hb.symm
        · rw [if_pos ⟨hp, hs⟩, if_neg he] at hb
          exact pbkdf2Sync_ne_empty p doc.salt hb.symm
    · rintro ⟨-, rfl⟩
      simp [hashPassword]

/-- Witness for the amended C2: a bcrypt-tagged record with no stored
password rejects a candidate. -/
theorem authenticate_empty_stored_witness :
    authenticate { password := "", salt := "", enctype := "bcrypt",
                   provider := "local" } "x" = false := by
  have h := authenticate_empty_stored
      { password := "", salt := "", enctype := "bcrypt", provider := "local" } "x" rfl
  rw [Bool.eq_false_iff]
  intro hb
  exact (h.mp hb).1 rfl

/-- C7: for every algorithm tag, `hashPassword` is a no-op returning its
password argument whenever the password or the salt is empty or absent. -/
theorem hashPassword_noop_on_missing (p s e : String) (h : p = "" ∨ s = "") :
    hashPassword p s e = p := by
  rcases h with rfl | rfl <;> simp [hashPassword]

/-- Witness for C7 at a concrete password with an empty salt. -/
theorem hashPassword_noop_on_missing_witness :
    hashPassword "secret" "" "bcrypt" = "secret" :=
  hashPassword_noop_on_missing "secret" "" "bcrypt" (Or.inr rfl)

/-! ### Claims C3, C4 -/

theorem owaspErrors_nil (p : String) (h : owaspErrors p = []) :
    owaspRequiredErrors p = [] ∧ hasRepeat3 p = false := by
  unfold owaspErrors at h
  have hreq : owaspRequiredErrors p = [] := (List.append_eq_nil.mp h).1
  refine ⟨hreq, ?_⟩
  unfold owaspRequiredErrors at hreq
  rcases List.append_eq_nil.mp hreq with ⟨-, h3⟩
  by_cases hr : hasRepeat3 p
  · rw [if_pos hr] at h3
    exact absurd h3 (by simp)
  · simpa using hr

/-- C3: the password-strength policy gates the save exactly at the
source's guard — a non-local provider or an unmodified (or empty)
password bypasses it entirely, and when it fires with a failing password
the save is aborted, the persisted document is left unchanged, and the
reported invalidation joins every violated rule's message. -/
theorem save_policy_gate (stored draft : UserDoc) (modified : Bool) (rnd : SaltSource) :
    (¬(draft.provider = "local" ∧ draft.password ≠ "" ∧ modified = true) →
        saveUser stored draft modified rnd = (pre_save draft modified rnd, none)) ∧
    (draft.provider = "local" → draft.password ≠ "" → modified = true →
        owaspErrors draft.password ≠ [] →
        saveUser stored draft modified rnd =
          (stored, some (String.intercalate " " (owaspErrors draft.password)))) := by
  constructor
  · intro hnot
    unfold saveUser pre_validate
    rw [if_neg hnot]
  · intro h1 h2 h3 h4
    unfold saveUser pre_validate
    rw [if_pos ⟨h1, h2, h3⟩, if_neg h4]

/-- Witness for C3: a weak password on a local account aborts the save
with the joined owasp messages and the stored document untouched, while a
federated account bypasses the policy with the same password. -/
theorem save_policy_gate_witness :
    saveUser { password := "old", salt := "s0", enctype := "crypto", provider := "local" }
        { password := "aaa", salt := "", enctype := "crypto", provider := "local" }
        true ⟨"bs", []⟩ =
      ({ password := "old", salt := "s0", enctype := "crypto", provider := "local" },
       some (String.intercalate " " (owaspErrors "aaa"))) ∧
    saveUser { password := "old", salt := "s0", enctype := "crypto", provider := "local" }
        { password := "aaa", salt := "", enctype := "crypto", provider := "facebook" }
        true ⟨"bs", []⟩ =
      (pre_save { password := "aaa", salt := "", enctype := "crypto", provider := "facebook" }
        true ⟨"bs", []⟩, none) := by
  constructor
  · exact (save_policy_gate
      { password := "old", salt := "s0", enctype := "crypto", provider := "local" }
      { password := "aaa", salt := "", enctype := "crypto", provider := "local" }
      true ⟨"bs", []⟩).2 rfl (by decide) rfl (by decide)
  · exact (save_policy_gate
      { password := "old", salt := "s0", enctype := "crypto", provider := "local" }
      { password := "aaa", salt := "", enctype := "crypto", provider := "facebook" }
      true ⟨"bs", []⟩).1 (by simp)

theorem genLoop_sound : ∀ (cands : List String) (pw p : String),
    genLoop cands pw = some p → 20 ≤ p.length ∧ hasRepeat3 p = false := by
  intro cands
  induction cands with
  | nil =>
    intro pw p h
    unfold genLoop at h
    split at h
    · exact absurd h (by simp)
    · split at h
      · exact absurd h (by simp)
      · rename_i h20 hrep
        obtain rfl : pw = p := by simpa using h
        exact ⟨by omega, by simpa using hrep⟩
  | cons c rest ih =>
    intro pw p h
    unfold genLoop at h
    split at h
    · exact ih _ p h
    · split at h
      · exact ih _ p h
      · rename_i h20 hrep
        obtain rfl : pw = p := by simpa using h
        exact ⟨by omega, by simpa using hrep⟩

/-- C4: every passphrase `generateRandomPassphrase` resolves with has
length at least 20, contains no run of three or more identical
characters, and passes the owasp test (in particular its required
rules); and if the loop's final candidate still fails the owasp test the
operation rejects with the fatal generation error instead of resolving. -/
theorem generateRandomPassphrase_spec (cands : List String) (p : String) :
    (generateRandomPassphrase cands = some (Except.ok p) →
        20 ≤ p.length ∧ hasRepeat3 p = false ∧ owaspErrors p = [] ∧
        owaspRequiredErrors p = []) ∧
    (genLoop cands "" = some p → owaspErrors p ≠ [] →
        generateRandomPassphrase cands = some (Except.error passphraseErrorMsg)) := by
  constructor
  · intro h
    unfold generateRandomPassphrase at h
    cases hg : genLoop cands "" with
    | none =>
      rw [hg] at h
      exact absurd h (by simp)
    | some pw =>
      rw [hg] at h
      have h2 : (if owaspErrors pw ≠ [] then some (Except.error passphraseErrorMsg)
          else some (Except.ok pw)) = some (Except.ok p) := h
      by_cases he : owaspErrors pw = []
      · rw [if_neg (fun hc => hc he)] at h2
        obtain rfl : pw = p := by simpa using h2
        obtain ⟨ha, hb⟩ := genLoop_sound cands "" pw hg
        exact ⟨ha, hb, he, (owaspErrors_nil pw he).1⟩
      · rw [if_pos he] at h2
        exact absurd h2 (by simp)
  · intro hg hne
    unfold generateRandomPassphrase
    rw [hg]
    show (if owaspErrors p ≠ [] then some (Except.error passphraseErrorMsg)
        else some (Except.ok p)) = some (Except.error passphraseErrorMsg)
    rw [if_pos hne]

/-- Witness for C4 on a concrete candidate stream: the loop accepts the
first candidate and the resolved passphrase satisfies every guaranteed
property. -/
theorem generateRandomPassphrase_spec_witness :
    generateRandomPassphrase ["abcdeFGHIJ12345klm68"] =
      some (Except.ok "abcdeFGHIJ12345klm68") ∧
    20 ≤ ("abcdeFGHIJ12345klm68" : String).length ∧
    hasRepeat3 "abcdeFGHIJ12345klm68" = false ∧
    owaspErrors "abcdeFGHIJ12345klm68" = [] ∧
    owaspRequiredErrors "abcdeFGHIJ12345klm68" = [] := by
  have h := (generateRandomPassphrase_spec ["abcdeFGHIJ12345klm68"]
      "abcdeFGHIJ12345klm68").1 (by rfl)
  exact ⟨by rfl, h⟩

/-! ### Claim C5 -/

theorem find_append_left_none {α : Type} (p : α → Bool) (l₁ l₂ : List α)
    (h : ∀ a ∈ l₁, p a = false) : (l₁ ++ l₂).find? p = l₂.find? p := by
  induction l₁ with
  | nil => rfl
  | cons a l ih =>
    rw [List.cons_append, List.find?_cons_of_neg _ (by simp [h a (List.mem_cons_self a l)])]
    exact ih (fun x hx => h x (List.mem_cons_of_mem a hx))

theorem filter_all_true {α : Type} (p : α → Bool) (l : List α)
    (h : ∀ a ∈ l, p a = true) : l.filter p = l := by
  induction l with
  | nil => rfl
  | cons a l ih =>
    rw [List.filter_cons_of_pos (h a (List.mem_cons_self a l))]
    rw [ih (fun x hx => h x (List.mem_cons_of_mem a hx))]

theorem filter_all_false {α : Type} (p : α → Bool) (l : List α)
    (h : ∀ a ∈ l, p a = false) : l.filter p = [] := by
  induction l with
  | nil => rfl
  | cons a l ih =>
    rw [List.filter_cons_of_neg (by simp [h a (List.mem_cons_self a l)])]
    exact ih (fun x hx => h x (List.mem_cons_of_mem a hx))

theorem dropPred_false_of_other (t : Int) (ix : TTLIndex)
    (h : ix.filterExpression ≠ some emailFilter) : dropPred t ix = false := by
  unfold dropPred
  rw [decide_eq_false h]
  simp

theorem find_singleton_none {α : Type} (p : α → Bool) (a : α) (h : p a = false) :
    List.find? p [a] = none := by
  simp [List.find?, h]

theorem find_singleton_some {α : Type} (p : α → Bool) (a : α) (h : p a = true) :
    List.find? p [a] = some a := by
  simp [List.find?, h]

theorem filter_singleton_nil {α : Type} (p : α → Bool) (a : α) (h : p a = false) :
    List.filter p [a] = [] := by
  simp [List.filter_cons, h]

theorem filter_singleton_keep {α : Type} (p : α → Bool) (a : α) (h : p a = true) :
    List.filter p [a] = [a] := by
  simp [List.filter_cons, h]

theorem dropPred_rule_self (t : Int) : dropPred t (emailTTLRule t) = false := by
  unfold dropPred
  rw [decide_eq_false (fun hc => hc rfl : ¬((emailTTLRule t).expireAfterSeconds ≠ some t))]
  simp

theorem dropPred_rule_stale (t tOld : Int) (h : tOld ≠ t) :
    dropPred t (emailTTLRule tOld) = true := by
  have hne : (emailTTLRule tOld).expireAfterSeconds ≠ some t :=
    fun hc => h (Option.some.inj hc)
  unfold dropPred
  rw [decide_eq_true hne, Bool.and_true]
  rfl

theorem createEmailTTLIndex_eq (t : Int) (ht : 0 < t) (ixs : List TTLIndex) :
    createEmailTTLIndex ⟨true, t⟩ ixs =
      createIndexOp
        (match ixs.find? (dropPred t) with
         | some o => ixs.filter (fun ix => ix.name != o.name)
         | none => ixs) emailFilter t := by
  unfold createEmailTTLIndex
  rw [if_pos ⟨rfl, ht⟩]

theorem createIndexOp_absent (ixs : List TTLIndex) (t : Int)
    (h : ∀ ix ∈ ixs, ix.key ≠ "created_at_1") :
    createIndexOp ixs emailFilter t = Except.ok (ixs ++ [emailTTLRule t]) := by
  unfold createIndexOp
  rw [List.find?_eq_none.mpr (fun x hx => by simpa using h x hx)]
  rfl

theorem createIndexOp_present (others : List TTLIndex) (t : Int)
    (h : ∀ ix ∈ others, ix.key ≠ "created_at_1") :
    createIndexOp (others ++ [emailTTLRule t]) emailFilter t =
      Except.ok (others ++ [emailTTLRule t]) := by
  unfold createIndexOp
  rw [find_append_left_none _ others _ (fun x hx => decide_eq_false (h x hx)),
      find_singleton_some (fun ix : TTLIndex => decide (ix.key = "created_at_1"))
        (emailTTLRule t) rfl]
  show (if (emailTTLRule t).name = "created_at_1" ∧
      (emailTTLRule t).filterExpression = some emailFilter ∧
      (emailTTLRule t).expireAfterSeconds = some t
    then Except.ok (others ++ [emailTTLRule t])
    else Except.error "IndexOptionsConflict") = Except.ok (others ++ [emailTTLRule t])
  rw [if_pos ⟨rfl, rfl, rfl⟩]

/-- C5: with email validation on and a positive TTL configured, the
reconciliation leaves exactly one TTL rule carrying the email filter and
the configured TTL, whatever the prior state among: no matching rule, the
current rule already present, or a stale rule with the same filter and a
different TTL; running it twice changes nothing further. Unrelated
indexes (different name, key and filter) ride along untouched. -/
theorem createEmailTTLIndex_reconciles (others : List TTLIndex) (t tOld : Int)
    (ht : 0 < t) (hstale : tOld ≠ t)
    (hothers : ∀ ix ∈ others, ix.name ≠ "created_at_1" ∧ ix.key ≠ "created_at_1" ∧
        ix.filterExpression ≠ some emailFilter) :
    createEmailTTLIndex ⟨true, t⟩ others = Except.ok (others ++ [emailTTLRule t]) ∧
    createEmailTTLIndex ⟨true, t⟩ (others ++ [emailTTLRule t]) =
      Except.ok (others ++ [emailTTLRule t]) ∧
    createEmailTTLIndex ⟨true, t⟩ (others ++ [emailTTLRule tOld]) =
      Except.ok (others ++ [emailTTLRule t]) ∧
    countEmailRules (others ++ [emailTTLRule t]) = 1 := by
  have hko : ∀ ix ∈ others, ix.key ≠ "created_at_1" := fun x hx => (hothers x hx).2.1
  have hdropO : ∀ x ∈ others, dropPred t x = false :=
    fun x hx => dropPred_false_of_other t x (hothers x hx).2.2
  refine ⟨?_, ?_, ?_, ?_⟩
  · rw [createEmailTTLIndex_eq t ht others,
        List.find?_eq_none.mpr (fun x hx => by simp [hdropO x hx])]
    exact createIndexOp_absent others t hko
  · rw [createEmailTTLIndex_eq t ht (others ++ [emailTTLRule t]),
        find_append_left_none _ others _ hdropO,
        find_singleton_none (dropPred t) (emailTTLRule t) (dropPred_rule_self t)]
    exact createIndexOp_present others t hko
  · rw [createEmailTTLIndex_eq t ht (others ++ [emailTTLRule tOld]),
        find_append_left_none _ others _ hdropO,
        find_singleton_some (dropPred t) (emailTTLRule tOld) (dropPred_rule_stale t tOld hstale)]
    have hfil : (others ++ [emailTTLRule tOld]).filter
        (fun ix => ix.name != (emailTTLRule tOld).name) = others := by
      rw [List.filter_append,
          filter_all_true (fun ix => ix.name != (emailTTLRule tOld).name) others
            (fun x hx => bne_iff_ne.mpr ((hothers x hx).1)),
          filter_singleton_nil (fun ix => ix.name != (emailTTLRule tOld).name)
            (emailTTLRule tOld) (by simp),
          List.append_nil]
    show createIndexOp ((others ++ [emailTTLRule tOld]).filter
        (fun ix => ix.name != (emailTTLRule tOld).name)) emailFilter t =
      Except.ok (others ++ [emailTTLRule t])
    rw [hfil]
    exact createIndexOp_absent others t hko
  · unfold countEmailRules
    rw [List.filter_append,
        filter_all_false (fun ix => decide (ix.filterExpression = some emailFilter)) others
          (fun x hx => decide_eq_false (hothers x hx).2.2),
        filter_singleton_keep (fun ix => decide (ix.filterExpression = some emailFilter))
          (emailTTLRule t) (decide_eq_true rfl)]
    simp

/-- Witness for C5 at TTL 200 against a stale TTL of 100 (the spec's own
example), with the ever-present id index riding along. -/
theorem createEmailTTLIndex_reconciles_witness :
    createEmailTTLIndex ⟨true, 200⟩ [⟨"_id_", "_id_1", none, none⟩] =
      Except.ok ([⟨"_id_", "_id_1", none, none⟩] ++ [emailTTLRule 200]) ∧
    createEmailTTLIndex ⟨true, 200⟩ ([⟨"_id_", "_id_1", none, none⟩] ++ [emailTTLRule 200]) =
      Except.ok ([⟨"_id_", "_id_1", none, none⟩] ++ [emailTTLRule 200]) ∧
    createEmailTTLIndex ⟨true, 200⟩ ([⟨"_id_", "_id_1", none, none⟩] ++ [emailTTLRule 100]) =
      Except.ok ([⟨"_id_", "_id_1", none, none⟩] ++ [emailTTLRule 200]) ∧
    countEmailRules ([⟨"_id_", "_id_1", none, none⟩] ++ [emailTTLRule 200]) = 1 :=
  createEmailTTLIndex_reconciles [⟨"_id_", "_id_1", none, none⟩] 200 100
    (by decide) (by decide) (by decide)

/-! ### Claims C6, C8, C9, C10 -/

/-- C6: whenever a non-empty password is being changed, the pre-save hook
draws a fresh salt fitting the record's algorithm — the bcrypt-generated
salt for bcrypt, the base64 encoding of the 16 random bytes otherwise —
pins the algorithm tag, and replaces the stored password with the hash of
the plaintext under that salt and algorithm; an unmodified password leaves
the document untouched, and a new password with no explicitly chosen
algorithm is hashed under the schema default, crypto. -/
theorem pre_save_fresh_salt (doc : UserDoc) (p : String) (rnd : SaltSource)
    (hp : doc.password ≠ "") (hq : p ≠ "") (hlen : rnd.randomBytes.length = 16) :
    (doc.enctype = "bcrypt" →
        pre_save doc true rnd =
          { doc with salt := rnd.bcryptSalt,
                     password := hashPassword doc.password rnd.bcryptSalt "bcrypt" }) ∧
    (doc.enctype ≠ "bcrypt" →
        pre_save doc true rnd =
          { doc with salt := base64Encode rnd.randomBytes, enctype := "crypto",
                     password := hashPassword doc.password (base64Encode rnd.randomBytes)
                       "crypto" }) ∧
    pre_save doc false rnd = doc ∧
    (newLocalUser p).enctype = defaultEnctype ∧
    pre_save (newLocalUser p) true rnd =
      { newLocalUser p with
          salt := base64Encode rnd.randomBytes, enctype := "crypto",
          password := hashPassword p (base64Encode rnd.randomBytes) "crypto" } := by
  have hcb : ("crypto" : String) ≠ "bcrypt" := by decide
  have hgen : ∀ d : UserDoc, d.password ≠ "" → d.enctype ≠ "bcrypt" →
      pre_save d true rnd =
        { d with salt := base64Encode rnd.randomBytes, enctype := "crypto",
                 password := hashPassword d.password (base64Encode rnd.randomBytes)
                   "crypto" } := by
    intro d hd he
    unfold pre_save
    rw [if_pos ⟨hd, rfl⟩, if_neg he]
  refine ⟨?_, hgen doc hp, ?_, rfl, ?_⟩
  · intro he
    unfold pre_save
    rw [if_pos ⟨hp, rfl⟩, if_pos he, he]
  · unfold pre_save
    rw [if_neg (by simp)]
  · exact hgen (newLocalUser p) hq (fun hc => hcb hc)

/-- Witness for C6 with a bcrypt record, an unmodified save, and a fresh
default-algorithm record, over concrete randomness of 16 bytes. -/
theorem pre_save_fresh_salt_witness :
    pre_save { password := "Str0ngPass", salt := "", enctype := "bcrypt", provider := "local" }
        true ⟨"bcsalt22chars", [0, 1, 2, 3, 4, 5, 6, 7, 8, 9, 10, 11, 12, 13, 14, 15]⟩ =
      { password := hashPassword "Str0ngPass" "bcsalt22chars" "bcrypt",
        salt := "bcsalt22chars", enctype := "bcrypt", provider := "local" } ∧
    pre_save { password := "Str0ngPass", salt := "", enctype := "bcrypt", provider := "local" }
        false ⟨"bcsalt22chars", [0, 1, 2, 3, 4, 5, 6, 7, 8, 9, 10, 11, 12, 13, 14, 15]⟩ =
      { password := "Str0ngPass", salt := "", enctype := "bcrypt", provider := "local" } ∧
    pre_save (newLocalUser "Str0ngPass")
        true ⟨"bcsalt22chars", [0, 1, 2, 3, 4, 5, 6, 7, 8, 9, 10, 11, 12, 13, 14, 15]⟩ =
      { newLocalUser "Str0ngPass" with
          salt := base64Encode [0, 1, 2, 3, 4, 5, 6, 7, 8, 9, 10, 11, 12, 13, 14, 15],
          enctype := "crypto",
          password := hashPassword "Str0ngPass"
            (base64Encode [0, 1, 2, 3, 4, 5, 6, 7, 8, 9, 10, 11, 12, 13, 14, 15]) "crypto" } := by
  have h := pre_save_fresh_salt
      { password := "Str0ngPass", salt := "", enctype := "bcrypt", provider := "local" }
      "Str0ngPass" ⟨"bcsalt22chars", [0, 1, 2, 3, 4, 5, 6, 7, 8, 9, 10, 11, 12, 13, 14, 15]⟩
      (by decide) (by decide) (by decide)
  exact ⟨h.1 rfl, h.2.2.1, h.2.2.2.2⟩

/-- C8: the phone validator's provider/updated guard reads the free
module context, not the document, so it is vacuously satisfied and the
validator accepts every phone string — empty or not, matching the
international format or not. -/
theorem validateLocalStrategyPhone_always_true (phone : String) :
    validateLocalStrategyPhone phone = true := by
  unfold validateLocalStrategyPhone
  split
  · rfl
  · rfl

/-- C9 counterexample. A configured SMS channel whose transport fails
propagates the rejection to the caller instead of reporting false: the
claim's universal never-propagate guarantee is violated by `sendSMS`. -/
theorem sendSMS_propagates_transport_error :
    sendSMS true "+15550100" "hello" (Except.error "twilio unavailable") =
      JsResult.rejected "twilio unavailable" := rfl

/-- C9 (amended): `sendMail` never rejects and returns false for an empty
recipient list, an unconfigured transport, or a transport error; `sendSMS`
returns false when the phone or the twilio configuration is absent, but a
transport error on a configured SMS send is returned as a rejection. -/
theorem notification_outcomes (env : MailerEnv) (subject body : String) (users : List String)
    (tw : Bool) (phone smsBody : String) (res : Except String String) :
    (∀ e, sendMail env subject body users ≠ JsResult.rejected e) ∧
    (users = [] → sendMail env subject body users = JsResult.falsy) ∧
    (env.isSendGrid = false → env.smtpConfigured = false →
        sendMail env subject body users = JsResult.falsy) ∧
    (env.isSendGrid = true → (∃ e, env.sgSend = Except.error e) →
        sendMail env subject body users = JsResult.falsy) ∧
    (env.isSendGrid = false → env.smtpConfigured = true →
        (∃ e, env.smtpSend = Except.error e) →
        sendMail env subject body users = JsResult.falsy) ∧
    (phone = "" ∨ tw = false → sendSMS tw phone smsBody res = JsResult.falsy) := by
  refine ⟨?_, ?_, ?_, ?_, ?_, ?_⟩
  · intro e
    unfold sendMail
    split
    · simp
    · split
      · cases env.sgSend <;> simp
      · split
        · cases env.smtpSend <;> simp
        · simp
  · rintro rfl
    rfl
  · intro h1 h2
    unfold sendMail
    rw [h1, h2]
    split <;> rfl
  · rintro h1 ⟨e, he⟩
    unfold sendMail
    rw [h1, he]
    split <;> rfl
  · rintro h1 h2 ⟨e, he⟩
    unfold sendMail
    rw [h1, h2, he]
    split <;> rfl
  · intro h
    unfold sendSMS
    rcases h with rfl | rfl
    · rw [if_neg (by simp)]
    · rw [if_neg (by simp)]

/-- Witness for the amended C9: unconfigured channels report false for
both mail and SMS. -/
theorem notification_outcomes_witness :
    sendMail ⟨false, false, Except.ok "a", Except.ok "b"⟩ "subj" "body" [] = JsResult.falsy ∧
    sendMail ⟨false, false, Except.ok "a", Except.ok "b"⟩ "subj" "body" ["u@e.io"] =
      JsResult.falsy ∧
    sendSMS false "" "hi" (Except.ok "sid") = JsResult.falsy := by
  have h := notification_outcomes ⟨false, false, Except.ok "a", Except.ok "b"⟩ "subj" "body"
      ["u@e.io"] false "" "hi" (Except.ok "sid")
  have h0 := notification_outcomes ⟨false, false, Except.ok "a", Except.ok "b"⟩ "subj" "body"
      [] false "" "hi" (Except.ok "sid")
  exact ⟨h0.2.1 rfl, h.2.2.1 rfl rfl, h.2.2.2.2.2 (Or.inl rfl)⟩

/-- C10: `validateLocalStrategyProperty` is constantly true, so the
first-name and last-name validations built on it never produce their
failure messages, for any value — the empty string included — whatever
the record's provider is (the validator never consults it). -/
theorem name_validators_never_reject (value : String) :
    validateLocalStrategyProperty value = true ∧
    runFieldValidator firstNameValidator value = [] ∧
    runFieldValidator lastNameValidator value = [] := by
  refine ⟨rfl, ?_, ?_⟩ <;> rfl

end UserModel
